import Mathlib

/-!  Shallow embedding of the rouille HTTP-server core: the request/response
envelope of src/lib.rs and the content-encoding negotiation of
src/content_encoding.rs.

Bytes are modelled as naturals, byte buffers as lists of naturals.  I/O on a
body stream is modelled by its outcome: either the full byte list, or an
error together with the bytes that had already been read when it struck.
External collaborators (the deflate and brotli compressors, feature flags of
the build) are abstracted as parameters in a build configuration record.
A Rust panic is modelled as the error case of an Except value, carrying the
panic message.  -/

namespace Rouille

/-- Outcome of reading a byte stream to its end: either all bytes, or an I/O
error after some bytes were already read (Rust's read_to_end appends the
bytes read so far to the buffer before reporting the error). -/
inductive ReadResult where
  | ok (bytes : List Nat) : ReadResult
  | err (bytesSoFar : List Nat) : ReadResult
deriving DecidableEq, Repr

/-- Bytes that read_to_end leaves in the caller's buffer, on success and on
error alike. -/
def ReadResult.buffered : ReadResult → List Nat
  | .ok bytes => bytes
  | .err bytesSoFar => bytesSoFar

/-- State of the underlying tiny_http request that src/lib.rs consults: the
request headers as (name, value) pairs in wire order, and the outcome of
reading the request body to its end. -/
structure TinyRequest where
  headers : List (String × String)
  body : ReadResult
deriving DecidableEq

/-- The Request envelope of src/lib.rs:63-67.  The Mutex fields only guard
single-owner access and are dropped; the two Option fields are kept as they
stand: request is the take-once connection handle, dataCache the lazily
populated body cache (field data in the source; renamed so the data method
below can keep its source name).  netReads is ghost instrumentation counting
how many times the body was pulled from the network; the source has no such
field and no definition reads it — it only lets theorems state that the
cache prevents re-reading. -/
structure Request where
  url : String
  request : Option TinyRequest
  dataCache : Option (List Nat)
  netReads : Nat
deriving DecidableEq

/-- Header lookup Request::header of src/lib.rs:79-82.  The source compares
h.field.as_str() == key: as_str yields the raw ASCII text of the stored
header name, and equality against a plain string is exact byte equality,
hence case-sensitive.  The lock().unwrap().as_ref().unwrap() chain panics
when the connection handle was already taken; claims about header lookup are
stated with the handle present, so the none branch is not exercised by
them. -/
def Request.header (r : Request) (key : String) : Option String :=
  match r.request with
  | some tr => (tr.headers.find? (fun h => h.1 == key)).map (fun h => h.2)
  | none => none

/-- Body access Request::data of src/lib.rs:85-98.  When the cache is
populated its contents are returned (cloned).  Otherwise the body is read
from the connection handle — the source discards the read_to_end Result
with a wildcard let, so the bytes buffered before an I/O error are cached
and returned exactly as a successful read would be — and the cache is
populated.  The as_mut().unwrap() on the handle panics when the handle was
already taken, modelled by the error case. -/
def Request.data (r : Request) : Except String (List Nat × Request) :=
  match r.dataCache with
  | some d => Except.ok (d, r)
  | none =>
    match r.request with
    | none => Except.error "called Option::unwrap() on a None value"
    | some tr =>
      let read := tr.body.buffered
      Except.ok (read, { r with dataCache := some read, netReads := r.netReads + 1 })

/-- Response-delivery step of a worker, src/lib.rs:57:
request.request.lock().unwrap().take().unwrap().respond(response).
Option::take empties the slot and yields its previous contents; unwrap
panics when the slot was already empty.  The step returns the envelope
after the step (or the panic) together with the number of responses the
step actually transmitted on the connection. -/
def respondStep (r : Request) : Except String Request × Nat :=
  match r.request with
  | some _ => (Except.ok { r with request := none }, 1)
  | none => (Except.error "called Option::unwrap() on a None value", 0)

/-- The body of a Response: the outcome of reading its stream to the end,
plus the optional known size that into_reader_and_size reports. -/
structure ResponseBody where
  read : ReadResult
  size : Option Nat
deriving DecidableEq

/-- ResponseBody::empty. -/
def ResponseBody.empty : ResponseBody := ⟨ReadResult.ok [], some 0⟩

/-- ResponseBody::from_data: a fully materialized buffer of known size. -/
def ResponseBody.from_data (d : List Nat) : ResponseBody := ⟨ReadResult.ok d, some d.length⟩

/-- ResponseBody::from_reader: wraps a stream without a known size. -/
def ResponseBody.from_reader (r : ReadResult) : ResponseBody := ⟨r, none⟩

/-- ResponseBody::into_reader_and_size. -/
def ResponseBody.into_reader_and_size (b : ResponseBody) : ReadResult × Option Nat :=
  (b.read, b.size)

/-- The Response value that content_encoding.rs manipulates: a status code,
an ordered list of (name, value) header pairs (duplicates allowed), and a
body. -/
structure Response where
  status_code : Nat
  headers : List (String × String)
  data : ResponseBody
deriving DecidableEq

/-- Build-time configuration abstracting the external compressors and the
cargo feature flags that conditionally compile them (cfg feature gzip /
brotli in src/content_encoding.rs:83-120).  deflate_bytes_gzip stands for
the external deflate crate's compressor; brotli_encoder for the stream
transformer BrotliEncoder::new(raw_data, 6) of the brotli2 crate. -/
structure BuildConfig where
  gzipFeature : Bool
  brotliFeature : Bool
  deflate_bytes_gzip : List Nat → List Nat
  brotli_encoder : ReadResult → ReadResult

/-- ASCII-case-insensitive string equality, Rust's eq_ignore_ascii_case
(Char.toLower folds exactly the ASCII uppercase letters). -/
def eq_ignore_ascii_case (a b : String) : Bool :=
  a.data.map Char.toLower == b.data.map Char.toLower

/-- Lower-casing of a string; the Content-Type values the source inspects
are ASCII, where Rust's to_lowercase agrees with ASCII folding. -/
def strLower (s : String) : String := ⟨s.data.map Char.toLower⟩

/-- Rust str::starts_with. -/
def strStartsWith (s p : String) : Bool := p.data.isPrefixOf s.data

/-- Whether p occurs as a contiguous run inside a character list. -/
def listIsInfix (p : List Char) : List Char → Bool
  | [] => p.isEmpty
  | l@(_ :: rest) => p.isPrefixOf l || listIsInfix p rest

/-- Rust str::contains with a string pattern. -/
def strContains (s p : String) : Bool := listIsInfix p.data s.data

/-- Content-type gate response_is_text of src/content_encoding.rs:68-81:
some header named Content-Type (ASCII-case-insensitively) has a value
whose lower-casing starts with text/ or contains javascript, json, xml or
font. -/
def response_is_text (response : Response) : Bool :=
  response.headers.any fun kv =>
    if !eq_ignore_ascii_case kv.1 "Content-Type" then false
    else
      let content_type := strLower kv.2
      strStartsWith content_type "text/" ||
      strContains content_type "javascript" ||
      strContains content_type "json" ||
      strContains content_type "xml" ||
      strContains content_type "font"

/-- Gzip transform of src/content_encoding.rs:83-104.  With the gzip feature
enabled it first appends a Content-Encoding: gzip header, swaps the body
out for an empty one, then copies the whole original body into a buffer —
io::copy(..).expect("Failed reading response body while gzipping") panics
on an I/O error, modelled as the error case — and finally installs the
deflated buffer as the new body.  Without the feature it is the empty
stub. -/
def gzip (cfg : BuildConfig) (response : Response) : Except String Response :=
  if cfg.gzipFeature then
    let response1 := { response with
                       headers := response.headers ++ [("Content-Encoding", "gzip")],
                       data := ResponseBody.empty }
    let (raw_data, _size) := response.data.into_reader_and_size
    match raw_data with
    | ReadResult.err _ => Except.error "Failed reading response body while gzipping"
    | ReadResult.ok src =>
      Except.ok { response1 with data := ResponseBody.from_data (cfg.deflate_bytes_gzip src) }
  else Except.ok response

/-- Brotli transform of src/content_encoding.rs:106-120.  With the brotli
feature enabled it appends a Content-Encoding: br header and wraps the
original body reader in a streaming encoder — nothing is read at this
point, so no I/O failure can occur here.  Without the feature it is the
empty stub. -/
def brotli (cfg : BuildConfig) (response : Response) : Response :=
  if cfg.brotliFeature then
    { response with
      headers := response.headers ++ [("Content-Encoding", "br")],
      data := ResponseBody.from_reader (cfg.brotli_encoder response.data.read) }
  else response

/-- Splits a character list at every occurrence of a separator character,
keeping empty segments (the behaviour of Rust's split on a char). -/
def splitList (sep : Char) : List Char → List (List Char)
  | [] => [[]]
  | c :: rest =>
    let r := splitList sep rest
    if c = sep then [] :: r
    else
      match r with
      | [] => [[c]]
      | h :: t => (c :: h) :: t

/-- Drops ASCII whitespace from both ends of a character list. -/
def trimChars (l : List Char) : List Char :=
  ((l.dropWhile Char.isWhitespace).reverse.dropWhile Char.isWhitespace).reverse

/-- Reads a non-empty all-digit character list as a natural number. -/
def digitsToNat (l : List Char) : Option Nat :=
  if l.isEmpty || l.any (fun c => !c.isDigit) then none
  else some (l.foldl (fun a c => a * 10 + (c.toNat - 48)) 0)

/-- Value of a fractional part, scaled to thousandths; at most the first
three digits are significant. -/
def fracPermille (f : List Char) : Option Nat :=
  if f.isEmpty then some 0
  else (digitsToNat (f.take 3)).map (fun n => n * 10 ^ (3 - (f.take 3).length))

/-- Modelled from the spec: the quality value of a q parameter, a decimal
float in the range zero to one, represented in thousandths (so 0.5 becomes
500) and clamped into range; none when malformed. -/
def parse_q_value (l : List Char) : Option Nat :=
  match splitList '.' l with
  | [i] => (digitsToNat i).map (fun n => min (n * 1000) 1000)
  | [i, f] =>
    match digitsToNat i, fracPermille f with
    | some n, some fr => some (min (n * 1000 + fr) 1000)
    | _, _ => none
  | _ => none

/-- Modelled from the spec (section 4.1, steps 1-2): one comma-separated
segment of a preference header.  The segment is split on semicolons; the
first piece, trimmed and lower-cased, is the token (an empty token yields
no entry); a q parameter among the remaining pieces gives the quality,
defaulting to 1.0 when absent and falling back to 1.0 when malformed. -/
def parse_priority_entry (seg : List Char) : Option (String × Nat) :=
  match splitList ';' seg with
  | [] => none
  | token :: params =>
    let tok := (trimChars token).map Char.toLower
    if tok.isEmpty then none
    else
      let q :=
        match params.find? (fun p => ['q', '='].isPrefixOf ((trimChars p).map Char.toLower)) with
        | none => 1000
        | some p => (parse_q_value ((trimChars p).drop 2)).getD 1000
      some (⟨tok⟩, q)

/-- Modelled from the spec (section 4.1, steps 1-2): parses a weighted
preference header into its (token, quality) entries, discarding entries
whose quality is exactly zero. -/
def parse_priority_header (header : String) : List (String × Nat) :=
  ((splitList ',' header.data).filterMap parse_priority_entry).filter (fun e => e.2 ≠ 0)

/-- Modelled from the spec (section 4.1, steps 4-5): the quality the parsed
entries assign to one supported token — the quality of its exact entry when
one exists (exact match preferred over wildcard), else the quality of a
wildcard entry, else none. -/
def entry_quality (entries : List (String × Nat)) (t : String) : Option Nat :=
  match entries.find? (fun e => e.1 == strLower t) with
  | some e => some e.2
  | none => (entries.find? (fun e => e.1 == "*")).map (fun e => e.2)

/-- Modelled from the spec (section 4.1, steps 5-6): walks the supported
list from index i0, keeping the index and quality of the best candidate —
highest quality wins, and on a quality tie the earlier index in the
supported list wins (the recursion keeps the head unless the rest is
strictly better). -/
def select_best (entries : List (String × Nat)) : List String → Nat → Option (Nat × Nat)
  | [], _ => none
  | t :: rest, i0 =>
    match entry_quality entries t, select_best entries rest (i0 + 1) with
    | none, r => r
    | some qh, none => some (i0, qh)
    | some qh, some (jr, qr) => if qr > qh then some (jr, qr) else some (i0, qh)

/-- Modelled from the spec: input::priority_header_preferred, whose source
file is not under src/ (src/content_encoding.rs:55 is its only caller
here).  Given a raw header value and the server-supported token list it
returns the index into the supported list of the single best mutually
acceptable token, or none when nothing matched with non-zero quality. -/
def priority_header_preferred (header : String) (elements : List String) : Option Nat :=
  (select_best (parse_priority_header header) elements 0).map (fun p => p.1)

/-- The fixed server-side preference list of src/content_encoding.rs:53,
most preferred first. -/
def encoding_preference : List String := ["br", "gzip", "x-gzip", "identity"]

/-- Content-encoding negotiation entry point apply of
src/content_encoding.rs:39-63.  Returns unchanged when the response is not
textual or already carries a Content-Encoding header; otherwise resolves
the request's Accept-Encoding header (absent treated as empty) against the
fixed preference list and dispatches on the winning token — the match on
string literals mirrors the source's match on the array element.  The
Except layer propagates the panic that gzip can raise. -/
def apply (cfg : BuildConfig) (request : Request) (response : Response) : Except String Response :=
  if !response_is_text response then Except.ok response
  else if response.headers.any (fun kv => eq_ignore_ascii_case kv.1 "Content-Encoding") then
    Except.ok response
  else
    let accept_encoding_header := (request.header "Accept-Encoding").getD ""
    match priority_header_preferred accept_encoding_header encoding_preference with
    | some preferred_index =>
      let chosen := encoding_preference.getD preferred_index ""
      if chosen = "br" then Except.ok (brotli cfg response)
      else if chosen = "gzip" then gzip cfg response
      else if chosen = "x-gzip" then gzip cfg response
      else Except.ok response
    | none => Except.ok response

/-- Build configuration with both compressor features enabled and the
identity function standing in for the concrete (external) compressors. -/
def cfgEx : BuildConfig := ⟨true, true, fun l => l, fun r => r⟩

/-- Request whose only header is an Accept-Encoding header with the given
value, the connection handle present, an empty body, nothing cached. -/
def reqAE (v : String) : Request :=
  ⟨"/", some ⟨[("Accept-Encoding", v)], ReadResult.ok []⟩, none, 0⟩

/-- Textual response whose body stream fails immediately when read. -/
def respFailingBody : Response :=
  ⟨200, [("Content-Type", "text/plain")], ⟨ReadResult.err [], none⟩⟩

/-- Textual response with the two-byte body 104, 105. -/
def respSmallText : Response :=
  ⟨200, [("Content-Type", "text/html")], ResponseBody.from_data [104, 105]⟩

/-- Tiny-http request whose body read fails after yielding the bytes 7, 8. -/
def trFailingBody : TinyRequest := ⟨[], ReadResult.err [7, 8]⟩

/-- Request envelope over trFailingBody, nothing cached. -/
def reqFailingBody : Request := ⟨"/", some trFailingBody, none, 0⟩

/-- Request envelope whose body reads successfully as 1, 2, 3. -/
def reqOkBody : Request := ⟨"/", some ⟨[], ReadResult.ok [1, 2, 3]⟩, none, 0⟩

/-- The envelope reqOkBody after its first data call: body cached, one
network read recorded. -/
def reqOkBodyCached : Request :=
  ⟨"/", some ⟨[], ReadResult.ok [1, 2, 3]⟩, some [1, 2, 3], 1⟩

/-- Tiny-http request carrying its accept-encoding header in lower case. -/
def trLowerAE : TinyRequest := ⟨[("accept-encoding", "gzip")], ReadResult.ok []⟩

/-- Request envelope over trLowerAE. -/
def reqLowerAE : Request := ⟨"/", some trLowerAE, none, 0⟩

/- ------------------------------------------------------------------ -/
/- Theorems.                                                           -/
/- ------------------------------------------------------------------ -/

/-- When the walk over the supported list finds no candidate, no supported
token is assigned a quality by the parsed entries. -/
theorem select_best_none_sound (entries : List (String × Nat)) :
    ∀ (l : List String) (i0 : Nat), select_best entries l i0 = none →
      ∀ k, k < l.length → entry_quality entries (l.getD k "") = none := by
  intro l
  induction l with
  | nil => intro i0 _ k hk; simp at hk
  | cons t rest ih =>
    intro i0 h k hk
    cases hq : entry_quality entries t with
    | none =>
      have h' : select_best entries rest (i0 + 1) = none := by
        simpa [select_best, hq] using h
      cases k with
      | zero => simpa using hq
      | succ k => simpa using ih (i0 + 1) h' k (by simpa using hk)
    | some qh =>
      exfalso
      cases hr : select_best entries rest (i0 + 1) with
      | none => simp [select_best, hq, hr] at h
      | some p =>
        obtain ⟨jr, qr⟩ := p
        rw [show select_best entries (t :: rest) i0 =
              (if qr > qh then some (jr, qr) else some (i0, qh)) by
            simp [select_best, hq, hr]] at h
        split at h <;> simp at h

/-- Soundness of the candidate walk: a returned pair is a real candidate at
an in-range index, its quality is maximal among all candidates, and on a
quality tie it sits at the earliest index of the supported list. -/
theorem select_best_sound (entries : List (String × Nat)) :
    ∀ (l : List String) (i0 i q : Nat), select_best entries l i0 = some (i, q) →
      i0 ≤ i ∧ i - i0 < l.length ∧
      entry_quality entries (l.getD (i - i0) "") = some q ∧
      ∀ k, k < l.length → ∀ qk, entry_quality entries (l.getD k "") = some qk →
        qk ≤ q ∧ (qk = q → i - i0 ≤ k) := by
  intro l
  induction l with
  | nil => intro i0 i q h; simp [select_best] at h
  | cons t rest ih =>
    intro i0 i q h
    cases hq : entry_quality entries t with
    | none =>
      have h' : select_best entries rest (i0 + 1) = some (i, q) := by
        simpa [select_best, hq] using h
      obtain ⟨h1, h2, h3, h4⟩ := ih (i0 + 1) i q h'
      obtain ⟨d, hd⟩ : ∃ d, i - i0 = d + 1 := ⟨i - i0 - 1, by omega⟩
      have hdeq : d = i - (i0 + 1) := by omega
      refine ⟨by omega, by simp only [List.length_cons]; omega, ?_, ?_⟩
      · rw [hd, List.getD_cons_succ, hdeq]; exact h3
      · intro k hk qk hqk
        cases k with
        | zero => rw [List.getD_cons_zero, hq] at hqk; cases hqk
        | succ k =>
          rw [List.getD_cons_succ] at hqk
          have hres := h4 k (by simpa using hk) qk hqk
          exact ⟨hres.1, fun he => by have := hres.2 he; omega⟩
    | some qh =>
      cases hr : select_best entries rest (i0 + 1) with
      | none =>
        rw [show select_best entries (t :: rest) i0 = some (i0, qh) by
          simp [select_best, hq, hr]] at h
        simp only [Option.some.injEq, Prod.mk.injEq] at h
        obtain ⟨hi, hqe⟩ := h
        subst hi; subst hqe
        refine ⟨le_refl _, by simp, ?_, ?_⟩
        · simpa [Nat.sub_self] using hq
        · intro k hk qk hqk
          cases k with
          | zero =>
            rw [List.getD_cons_zero, hq] at hqk
            cases hqk
            exact ⟨le_refl _, fun _ => by omega⟩
          | succ k =>
            rw [List.getD_cons_succ] at hqk
            rw [select_best_none_sound entries rest (i0 + 1) hr k (by simpa using hk)] at hqk
            cases hqk
      | some p =>
        obtain ⟨jr, qr⟩ := p
        rw [show select_best entries (t :: rest) i0 =
              (if qr > qh then some (jr, qr) else some (i0, qh)) by
            simp [select_best, hq, hr]] at h
        by_cases hgt : qr > qh
        · rw [if_pos hgt] at h
          simp only [Option.some.injEq, Prod.mk.injEq] at h
          obtain ⟨h1, h2, h3, h4⟩ := ih (i0 + 1) jr qr hr
          obtain ⟨hi, hqe⟩ := h
          subst hi; subst hqe
          obtain ⟨d, hd⟩ : ∃ d, jr - i0 = d + 1 := ⟨jr - i0 - 1, by omega⟩
          have hdeq : d = jr - (i0 + 1) := by omega
          refine ⟨by omega, by simp only [List.length_cons]; omega, ?_, ?_⟩
          · rw [hd, List.getD_cons_succ, hdeq]; exact h3
          · intro k hk qk hqk
            cases k with
            | zero =>
              rw [List.getD_cons_zero, hq] at hqk
              cases hqk
              exact ⟨by omega, fun _ => by omega⟩
            | succ k =>
              rw [List.getD_cons_succ] at hqk
              have hres := h4 k (by simpa using hk) qk hqk
              exact ⟨hres.1, fun he => by have := hres.2 he; omega⟩
        · rw [if_neg hgt] at h
          simp only [Option.some.injEq, Prod.mk.injEq] at h
          obtain ⟨hi, hqe⟩ := h
          subst hi; subst hqe
          obtain ⟨h1, h2, h3, h4⟩ := ih (i0 + 1) jr qr hr
          refine ⟨le_refl _, by simp, ?_, ?_⟩
          · simpa [Nat.sub_self] using hq
          · intro k hk qk hqk
            cases k with
            | zero =>
              rw [List.getD_cons_zero, hq] at hqk
              cases hqk
              exact ⟨le_refl _, fun _ => by omega⟩
            | succ k =>
              rw [List.getD_cons_succ] at hqk
              have hres := h4 k (by simpa using hk) qk hqk
              exact ⟨by omega, fun _ => by omega⟩

/-- C2: for every Accept-Encoding header value and the fixed supported list
br, gzip, x-gzip, identity, the preference resolution picks, among all
parsed non-zero-quality entries that match a supported token, the one with
the highest quality, breaking quality ties by the server list's own order
(earlier wins), not by header appearance order; in particular the header
gzip;q=0.5, br;q=0.8, identity;q=0.1 selects br, and the header br, gzip
selects br by the server-order tie-break. -/
theorem C2_preference_resolution :
    (priority_header_preferred "gzip;q=0.5, br;q=0.8, identity;q=0.1" encoding_preference =
        some 0 ∧
      encoding_preference.getD 0 "" = "br") ∧
    (priority_header_preferred "br, gzip" encoding_preference = some 0) ∧
    ∀ (h : String) (els : List String) (i : Nat),
      priority_header_preferred h els = some i →
      i < els.length ∧
      ∃ q, entry_quality (parse_priority_header h) (els.getD i "") = some q ∧
        ∀ k, k < els.length → ∀ qk,
          entry_quality (parse_priority_header h) (els.getD k "") = some qk →
          qk ≤ q ∧ (qk = q → i ≤ k) := by
  refine ⟨⟨by decide, by decide⟩, by decide, ?_⟩
  intro h els i hp
  unfold priority_header_preferred at hp
  cases hs : select_best (parse_priority_header h) els 0 with
  | none => rw [hs] at hp; cases hp
  | some p =>
    obtain ⟨j, q⟩ := p
    rw [hs] at hp
    simp only [Option.map_some', Option.some.injEq] at hp
    subst hp
    obtain ⟨_, h2, h3, h4⟩ := select_best_sound (parse_priority_header h) els 0 j q hs
    rw [Nat.sub_zero] at h2 h3
    refine ⟨h2, q, h3, ?_⟩
    intro k hk qk hqk
    have hres := h4 k hk qk hqk
    exact ⟨hres.1, fun he => by have := hres.2 he; omega⟩

/-- Witness for C2: the resolution applied to the header br against the
one-element supported list br. -/
theorem C2_witness :
    priority_header_preferred "br" ["br"] = some 0 ∧
    (0 < (["br"] : List String).length ∧
      ∃ q, entry_quality (parse_priority_header "br") ((["br"] : List String).getD 0 "") =
          some q ∧
        ∀ k, k < (["br"] : List String).length → ∀ qk,
          entry_quality (parse_priority_header "br") ((["br"] : List String).getD k "") =
            some qk →
          qk ≤ q ∧ (qk = q → 0 ≤ k)) :=
  ⟨by decide, C2_preference_resolution.2.2 "br" ["br"] 0 (by decide)⟩

/-- C5: for every response that already carries a header named
Content-Encoding (matched case-insensitively on the name) and for every
request and build configuration, apply returns the response unchanged. -/
theorem C5_existing_encoding_identity
    (cfg : BuildConfig) (request : Request) (response : Response)
    (h : response.headers.any (fun kv => eq_ignore_ascii_case kv.1 "Content-Encoding") = true) :
    apply cfg request response = Except.ok response := by
  unfold apply
  cases ht : response_is_text response
  · simp [ht]
  · simp [ht, h]

/-- Witness for C5: a textual response that already carries
Content-Encoding: gzip passes through apply unchanged. -/
theorem C5_witness :
    (⟨200, [("Content-Type", "text/html"), ("Content-Encoding", "gzip")],
        ResponseBody.from_data [1]⟩ : Response).headers.any
        (fun kv => eq_ignore_ascii_case kv.1 "Content-Encoding") = true ∧
    apply cfgEx (reqAE "gzip")
        ⟨200, [("Content-Type", "text/html"), ("Content-Encoding", "gzip")],
          ResponseBody.from_data [1]⟩ =
      Except.ok ⟨200, [("Content-Type", "text/html"), ("Content-Encoding", "gzip")],
        ResponseBody.from_data [1]⟩ :=
  ⟨by decide, C5_existing_encoding_identity cfgEx (reqAE "gzip") _ (by decide)⟩

/-- C6: for every response with no Content-Type header, or whose
Content-Type values (lower-cased) neither start with text/ nor contain
javascript, json, xml or font as a substring, and for every request and
build configuration, apply returns the response unchanged. -/
theorem C6_non_text_identity
    (cfg : BuildConfig) (request : Request) (response : Response)
    (h : ∀ kv ∈ response.headers, eq_ignore_ascii_case kv.1 "Content-Type" = true →
      (strStartsWith (strLower kv.2) "text/" ||
       strContains (strLower kv.2) "javascript" ||
       strContains (strLower kv.2) "json" ||
       strContains (strLower kv.2) "xml" ||
       strContains (strLower kv.2) "font") = false) :
    apply cfg request response = Except.ok response := by
  have ht : response_is_text response = false := by
    unfold response_is_text
    rw [List.any_eq_false]
    intro kv hkv
    by_cases hc : eq_ignore_ascii_case kv.1 "Content-Type" = true
    · simp [hc, h kv hkv hc]
    · simp [Bool.not_eq_true] at hc
      simp [hc]
  unfold apply
  simp [ht]

/-- Witness for C6: a response whose only Content-Type header is image/png
passes through apply unchanged. -/
theorem C6_witness :
    apply cfgEx (reqAE "gzip")
        ⟨200, [("Content-Type", "image/png")], ResponseBody.from_data [2]⟩ =
      Except.ok ⟨200, [("Content-Type", "image/png")], ResponseBody.from_data [2]⟩ :=
  C6_non_text_identity cfgEx (reqAE "gzip") _ (by decide)

/-- C7: an empty or absent Accept-Encoding header yields no winner, and for
every request whose negotiation yields no winner, or whose winner is
identity, or whose winner's compressor is not compiled into the build,
apply leaves the response unchanged and adds no Content-Encoding header. -/
theorem C7_no_encoding_cases_identity :
    priority_header_preferred "" encoding_preference = none ∧
    ∀ (cfg : BuildConfig) (request : Request) (response : Response),
      (priority_header_preferred ((request.header "Accept-Encoding").getD "")
          encoding_preference = none ∨
        (∃ i, priority_header_preferred ((request.header "Accept-Encoding").getD "")
            encoding_preference = some i ∧
          (encoding_preference.getD i "" = "identity" ∨
           ((encoding_preference.getD i "" = "gzip" ∨
             encoding_preference.getD i "" = "x-gzip") ∧ cfg.gzipFeature = false) ∨
           (encoding_preference.getD i "" = "br" ∧ cfg.brotliFeature = false)))) →
      apply cfg request response = Except.ok response := by
  refine ⟨by decide, ?_⟩
  intro cfg request response hcase
  unfold apply
  cases ht : response_is_text response
  · simp [ht]
  · cases hce : response.headers.any (fun kv => eq_ignore_ascii_case kv.1 "Content-Encoding")
    · simp only [ht, Bool.not_true, Bool.false_eq_true, if_false, hce, if_true]
      rcases hcase with hnone | ⟨i, hi, htok⟩
      · simp [hnone]
      · rw [hi]
        rcases htok with he | ⟨hg, hf⟩ | ⟨hb, hf⟩
        · rw [List.getD_eq_getElem?_getD] at he
          simp [he]
        · rcases hg with hg | hg <;> rw [List.getD_eq_getElem?_getD] at hg <;>
            simp [hg, gzip, hf]
        · rw [List.getD_eq_getElem?_getD] at hb
          simp [hb, brotli, hf]
    · simp [ht, hce]

/-- Witness for C7: a request accepting only identity leaves a textual
response untouched. -/
theorem C7_witness :
    apply cfgEx (reqAE "identity") respSmallText = Except.ok respSmallText :=
  C7_no_encoding_cases_identity.2 cfgEx (reqAE "identity") respSmallText
    (Or.inr ⟨3, by decide, Or.inl (by decide)⟩)

/-- Counterexample to C1: on a textual response whose body read fails, with
gzip accepted and the gzip feature compiled in, apply does not return the
original unencoded response — it propagates the panic raised by the
expect call in the gzip transform, so the failure is fatal to that unit of
work. -/
theorem C1_counterexample :
    respFailingBody.data.read = ReadResult.err [] ∧
    apply cfgEx (reqAE "gzip") respFailingBody =
      Except.error "Failed reading response body while gzipping" :=
  ⟨rfl, rfl⟩

/-- C1 amended: whenever the encoding step reaches the gzip transform (gzip
feature compiled in, textual response, no prior Content-Encoding header,
winning token gzip or x-gzip) and reading the original body fails with an
I/O error, apply panics with the message of the expect call instead of
returning the original response. -/
theorem C1_amended_gzip_read_failure_panics
    (cfg : BuildConfig) (request : Request) (response : Response) (i : Nat) (bs : List Nat)
    (hgz : cfg.gzipFeature = true)
    (htext : response_is_text response = true)
    (hce : response.headers.any (fun kv => eq_ignore_ascii_case kv.1 "Content-Encoding") = false)
    (hwin : priority_header_preferred ((request.header "Accept-Encoding").getD "")
        encoding_preference = some i)
    (htok : encoding_preference.getD i "" = "gzip" ∨ encoding_preference.getD i "" = "x-gzip")
    (hbody : response.data.read = ReadResult.err bs) :
    apply cfg request response = Except.error "Failed reading response body while gzipping" := by
  rcases htok with hg | hg <;> rw [List.getD_eq_getElem?_getD] at hg <;>
    simp [apply, htext, hce, hwin, hg, gzip, hgz, ResponseBody.into_reader_and_size, hbody]

/-- Witness for C1 amended: a failing body behind an x-gzip negotiation
makes apply panic. -/
theorem C1_witness :
    apply cfgEx (reqAE "x-gzip") respFailingBody =
      Except.error "Failed reading response body while gzipping" :=
  C1_amended_gzip_read_failure_panics cfgEx (reqAE "x-gzip") respFailingBody 2 []
    rfl (by decide) (by decide) (by decide) (Or.inr (by decide)) rfl

/-- Counterexample to C4: when x-gzip wins the negotiation the appended
Content-Encoding header is valued gzip, not x-gzip as the claim states. -/
theorem C4_counterexample :
    priority_header_preferred "x-gzip" encoding_preference = some 2 ∧
    encoding_preference.getD 2 "" = "x-gzip" ∧
    apply cfgEx (reqAE "x-gzip") respSmallText =
      Except.ok ⟨200, [("Content-Type", "text/html"), ("Content-Encoding", "gzip")],
        ResponseBody.from_data [104, 105]⟩ ∧
    ([("Content-Type", "text/html"), ("Content-Encoding", "gzip")] :
        List (String × String)).any (fun kv => kv.2 == "x-gzip") = false :=
  ⟨by decide, by decide, rfl, by decide⟩

/-- C4 amended: for every eligible text response (no prior Content-Encoding
header) whose negotiation has a winner the build supports, apply replaces
the body with the compressed stream and appends exactly one
Content-Encoding header naming the applied algorithm: value br when br
wins, and value gzip when either gzip or x-gzip wins — a win by x-gzip
yields a header valued gzip. -/
theorem C4_amended_encoding_transform
    (cfg : BuildConfig) (request : Request) (response : Response) (i : Nat)
    (htext : response_is_text response = true)
    (hce : response.headers.any (fun kv => eq_ignore_ascii_case kv.1 "Content-Encoding") = false)
    (hwin : priority_header_preferred ((request.header "Accept-Encoding").getD "")
        encoding_preference = some i) :
    (cfg.brotliFeature = true → encoding_preference.getD i "" = "br" →
      apply cfg request response = Except.ok
        { response with
          headers := response.headers ++ [("Content-Encoding", "br")],
          data := ResponseBody.from_reader (cfg.brotli_encoder response.data.read) }) ∧
    (∀ src, cfg.gzipFeature = true →
      (encoding_preference.getD i "" = "gzip" ∨ encoding_preference.getD i "" = "x-gzip") →
      response.data.read = ReadResult.ok src →
      apply cfg request response = Except.ok
        { response with
          headers := response.headers ++ [("Content-Encoding", "gzip")],
          data := ResponseBody.from_data (cfg.deflate_bytes_gzip src) }) := by
  constructor
  · intro hbf htok
    rw [List.getD_eq_getElem?_getD] at htok
    simp [apply, htext, hce, hwin, htok, brotli, hbf]
  · intro src hgf htok hbody
    rcases htok with hg | hg <;> rw [List.getD_eq_getElem?_getD] at hg <;>
      simp [apply, htext, hce, hwin, hg, gzip, hgf, ResponseBody.into_reader_and_size, hbody]

/-- Witness for C4 amended: a gzip win on a small text response appends
Content-Encoding: gzip and swaps in the compressed body. -/
theorem C4_witness :
    apply cfgEx (reqAE "gzip") respSmallText = Except.ok
      { respSmallText with
        headers := respSmallText.headers ++ [("Content-Encoding", "gzip")],
        data := ResponseBody.from_data (cfgEx.deflate_bytes_gzip [104, 105]) } :=
  (C4_amended_encoding_transform cfgEx (reqAE "gzip") respSmallText 1
      (by decide) (by decide) (by decide)).2 [104, 105] rfl (Or.inl (by decide)) rfl

/-- Counterexample to C3: on a request whose body read fails after the
bytes 7, 8 were received, Request.data returns an ordinary success value
carrying those bytes and caches them — no failure signal reaches the
caller. -/
theorem C3_counterexample :
    reqFailingBody.dataCache = none ∧
    reqFailingBody.request = some trFailingBody ∧
    trFailingBody.body = ReadResult.err [7, 8] ∧
    Request.data reqFailingBody =
      Except.ok ([7, 8], ⟨"/", some trFailingBody, some [7, 8], 1⟩) :=
  ⟨rfl, rfl, rfl, rfl⟩

/-- C3 amended: when the underlying body read fails with an I/O error,
Request.data silently discards the error — the wildcard let around
read_to_end drops the Result — and returns and caches exactly the bytes
that had been read before the failure. -/
theorem C3_amended_data_swallows_error
    (r : Request) (tr : TinyRequest) (bs : List Nat)
    (hc : r.dataCache = none) (hr : r.request = some tr)
    (hb : tr.body = ReadResult.err bs) :
    Request.data r =
      Except.ok (bs, { r with dataCache := some bs, netReads := r.netReads + 1 }) := by
  simp [Request.data, hc, hr, hb, ReadResult.buffered]

/-- Witness for C3 amended: the failing-body request yields its partial
bytes as a success value. -/
theorem C3_witness :
    Request.data reqFailingBody =
      Except.ok ([7, 8], { reqFailingBody with
        dataCache := some [7, 8],
        netReads := reqFailingBody.netReads + 1 }) :=
  C3_amended_data_swallows_error reqFailingBody trFailingBody [7, 8] rfl rfl rfl

/-- C8: whenever a data call succeeds with bytes d1 and envelope r1, the
cache of r1 holds exactly d1 and a second data call returns the identical
bytes and the identical envelope — in particular netReads is unchanged, so
the network is not read a second time. -/
theorem C8_data_idempotent_cached
    (r r1 : Request) (d1 : List Nat)
    (h : Request.data r = Except.ok (d1, r1)) :
    r1.dataCache = some d1 ∧ Request.data r1 = Except.ok (d1, r1) := by
  unfold Request.data at h
  cases hc : r.dataCache with
  | some d =>
    rw [hc] at h
    simp only [Except.ok.injEq, Prod.mk.injEq] at h
    obtain ⟨hd, hr⟩ := h
    subst hd; subst hr
    exact ⟨hc, by simp [Request.data, hc]⟩
  | none =>
    cases hq : r.request with
    | none => rw [hc, hq] at h; simp at h
    | some tr =>
      rw [hc, hq] at h
      simp only [Except.ok.injEq, Prod.mk.injEq] at h
      obtain ⟨hd, hr⟩ := h
      subst hd; subst hr
      exact ⟨rfl, by simp [Request.data]⟩

/-- Witness for C8: the sample request with body 1, 2, 3 caches it on the
first call and returns it identically on the second. -/
theorem C8_witness :
    reqOkBodyCached.dataCache = some [1, 2, 3] ∧
    Request.data reqOkBodyCached = Except.ok ([1, 2, 3], reqOkBodyCached) :=
  C8_data_idempotent_cached reqOkBody reqOkBodyCached [1, 2, 3] rfl

/-- Counterexample to C9: a request storing its header name in lower case
is not found under the canonical capitalization, although the two names
are equal ignoring ASCII case — the lookup is not case-insensitive. -/
theorem C9_counterexample :
    reqLowerAE.request = some trLowerAE ∧
    trLowerAE.headers = [("accept-encoding", "gzip")] ∧
    eq_ignore_ascii_case "accept-encoding" "Accept-Encoding" = true ∧
    Request.header reqLowerAE "Accept-Encoding" = none ∧
    Request.header reqLowerAE "accept-encoding" = some "gzip" :=
  ⟨rfl, rfl, by decide, by decide, by decide⟩

/-- A successful find? splits its list at the hit: the returned element
satisfies the predicate and every element before it fails it. -/
theorem find?_first_split {α : Type} (p : α → Bool) :
    ∀ (l : List α) (a : α), l.find? p = some a →
      ∃ l1 l2, l = l1 ++ a :: l2 ∧ p a = true ∧ ∀ x ∈ l1, p x = false := by
  intro l
  induction l with
  | nil => intro a h; simp at h
  | cons b t ih =>
    intro a h
    cases hp : p b with
    | true =>
      rw [List.find?_cons_of_pos _ hp] at h
      cases h
      exact ⟨[], t, rfl, hp, by simp⟩
    | false =>
      rw [List.find?_cons_of_neg _ (by simp [hp])] at h
      obtain ⟨l1, l2, heq, hpa, hall⟩ := ih a h
      refine ⟨b :: l1, l2, by rw [heq]; rfl, hpa, ?_⟩
      intro x hx
      rcases List.mem_cons.mp hx with hx | hx
      · subst hx; exact hp
      · exact hall x hx

/-- C9 amended: Request.header performs a case-sensitive exact lookup — it
returns none exactly when no stored header name equals the key verbatim,
and a returned value is the value of the first header whose name equals
the key verbatim: every header preceding it in wire order has a different
name, even if one matches ignoring ASCII case. -/
theorem C9_amended_header_case_sensitive
    (r : Request) (tr : TinyRequest) (key : String)
    (hr : r.request = some tr) :
    (Request.header r key = none ↔ ∀ kv ∈ tr.headers, kv.1 ≠ key) ∧
    ∀ v, Request.header r key = some v →
      ∃ kv l1 l2, tr.headers = l1 ++ kv :: l2 ∧ kv.1 = key ∧ kv.2 = v ∧
        ∀ kv2 ∈ l1, kv2.1 ≠ key := by
  have hdef : Request.header r key =
      (tr.headers.find? (fun h => h.1 == key)).map (fun h => h.2) := by
    simp [Request.header, hr]
  rw [hdef]
  constructor
  · rw [Option.map_eq_none', List.find?_eq_none]
    constructor
    · intro hnone kv hkv
      simpa using hnone kv hkv
    · intro hall kv hkv
      simpa using hall kv hkv
  · intro v hv
    rw [Option.map_eq_some'] at hv
    obtain ⟨kv, hfind, hval⟩ := hv
    obtain ⟨l1, l2, heq, hpa, hall⟩ :=
      find?_first_split (fun h => h.1 == key) tr.headers kv hfind
    refine ⟨kv, l1, l2, heq, by simpa using hpa, hval, ?_⟩
    intro kv2 h2
    simpa using hall kv2 h2

/-- Witness for C9 amended: the lookup under the verbatim lower-case name
is characterized on the sample request. -/
theorem C9_witness :
    (Request.header reqLowerAE "accept-encoding" = none ↔
      ∀ kv ∈ trLowerAE.headers, kv.1 ≠ "accept-encoding") ∧
    ∀ v, Request.header reqLowerAE "accept-encoding" = some v →
      ∃ kv l1 l2, trLowerAE.headers = l1 ++ kv :: l2 ∧ kv.1 = "accept-encoding" ∧
        kv.2 = v ∧ ∀ kv2 ∈ l1, kv2.1 ≠ "accept-encoding" :=
  C9_amended_header_case_sensitive reqLowerAE trLowerAE "accept-encoding" rfl

/-- C10: the connection handle is taken at most once — the first respond
step consumes the handle and transmits exactly one response, and a second
respond step on the same envelope fails loudly with the unwrap panic of
that unit of work while transmitting nothing, so no second reply is ever
sent. -/
theorem C10_handle_taken_at_most_once
    (r : Request) (hr : r.request.isSome = true) :
    (respondStep r).1 = Except.ok { r with request := none } ∧
    (respondStep r).2 = 1 ∧
    (respondStep { r with request := none }).1 =
      Except.error "called Option::unwrap() on a None value" ∧
    (respondStep { r with request := none }).2 = 0 := by
  obtain ⟨tr, htr⟩ := Option.isSome_iff_exists.mp hr
  simp [respondStep, htr]

/-- Witness for C10: the double respond step on a sample envelope. -/
theorem C10_witness :
    (respondStep (reqAE "gzip")).1 = Except.ok { reqAE "gzip" with request := none } ∧
    (respondStep (reqAE "gzip")).2 = 1 ∧
    (respondStep { reqAE "gzip" with request := none }).1 =
      Except.error "called Option::unwrap() on a None value" ∧
    (respondStep { reqAE "gzip" with request := none }).2 = 0 :=
  C10_handle_taken_at_most_once (reqAE "gzip") rfl

end Rouille
